import Mathlib

/-!
Shallow embedding of the Astra `file_input` module (src/unnamed/part_001).

Bytes are modelled as `Nat` values; every read through `byte` reduces
modulo 256 (the C buffers hold `uint8_t`).  Files and buffers are
`List Nat`.  Pointers into the input buffer are offsets (`Nat`), with
`Option Nat` standing for a possibly-NULL pointer.  A `none` result of
a state-returning function marks an execution that dereferences a NULL
pointer (undefined behaviour in the C source).  Bytes of the input
buffer past a short read are unspecified in C; the model reads them
as 0.
-/

def TS_PACKET_SIZE : Nat := 188

def M2TS_PACKET_SIZE : Nat := 192

/-- Read byte `i` of a buffer (uint8_t semantics). -/
def byte (l : List Nat) (i : Nat) : Nat := l.getD i 0 % 256

/-- `check_pcr` from the source: adaptation field present, nonzero length,
PCR_flag set, random_access_indicator clear. -/
def check_pcr (ts : List Nat) : Bool :=
  (byte ts 3 &&& 0x20 != 0)
    && (byte ts 4 != 0)
    && (byte ts 5 &&& 0x10 != 0)
    && (byte ts 5 &&& 0x40 == 0)

/-- `calc_pcr` from the source: 33-bit base * 300 + 9-bit extension. -/
def calc_pcr (ts : List Nat) : Nat :=
  let pcr_base := (byte ts 6 <<< 25)
              ||| (byte ts 7 <<< 17)
              ||| (byte ts 8 <<< 9)
              ||| (byte ts 9 <<< 1)
              ||| (byte ts 10 >>> 7)
  let pcr_ext := ((byte ts 10 &&& 1) <<< 8) ||| byte ts 11
  pcr_base * 300 + pcr_ext

/-- `m2ts_time` from the source: 32-bit big-endian timestamp. -/
def m2ts_time (ts : List Nat) : Nat :=
  (byte ts 0 <<< 24) ||| (byte ts 1 <<< 16) ||| (byte ts 2 <<< 8) ||| byte ts 3

/-- Common loop body of `seek_pcr_188` / `seek_pcr_192`: starting at `off`,
walk in strides of `step` while below `endOff`, returning the first offset
whose packet satisfies `P`.  The fuel argument only totalises the loop; it
is always given large enough to be irrelevant. -/
def seek_loop_fuel : Nat → Nat → (Nat → Bool) → Nat → Nat → Option Nat
  | 0, _, _, _, _ => none
  | fuel + 1, step, P, endOff, off =>
    if off < endOff then
      if P off then some off else seek_loop_fuel fuel step P endOff (off + step)
    else none

def seek_loop (step : Nat) (P : Nat → Bool) (endOff off : Nat) : Option Nat :=
  seek_loop_fuel (endOff + 1) step P endOff off

/-- `seek_pcr_188`: the scan starts one whole packet after `buffer`
(the C source does `buffer += TS_PACKET_SIZE` before its loop). -/
def seek_pcr_188 (buf : List Nat) (endOff : Nat) : Option Nat :=
  seek_loop TS_PACKET_SIZE (fun off => check_pcr (buf.drop off)) endOff TS_PACKET_SIZE

/-- `seek_pcr_192`: strides of 192 starting at the second cell; the TS
header of a cell begins 4 bytes in. -/
def seek_pcr_192 (buf : List Nat) (endOff : Nat) : Option Nat :=
  seek_loop M2TS_PACKET_SIZE (fun off => check_pcr (buf.drop (off + 4))) endOff
    M2TS_PACKET_SIZE

/-- The fields of `module_data_t` that the modelled operations touch.
`ptr` is the offset of `input.ptr` inside `input.buffer` (`none` = NULL);
`buffer` is the current content of the input window. -/
structure FI where
  file_size : Nat
  skip : Nat
  ts_size : Nat
  start_time : Nat
  length : Nat
  buffer : List Nat
  ptr : Option Nat
  pcr : Nat
  reposition : Bool
  logs : List String
  deriving DecidableEq, Repr

/-- Fresh state as set up by `module_init` (input.ptr = input.buffer). -/
def initFI : FI :=
  { file_size := 0, skip := 0, ts_size := 0, start_time := 0, length := 0
    buffer := [], ptr := some 0, pcr := 0, reposition := false, logs := [] }

/-- Lines 162-169 of `open_file`: a nonzero skip at least as large as the
file is reset to 0 with a warning; a zero skip is never checked. -/
def skip_check (skip file_size : Nat) : Nat × List String :=
  if skip ≠ 0 then
    if skip ≥ file_size then (0, ["skip value is greater than the file size"])
    else (skip, [])
  else (skip, [])

/-- `pread(fd, buf, size, off)` on a file of known content: at most `size`
bytes starting at `off`. -/
def preadBytes (file : List Nat) (size off : Nat) : List Nat :=
  (file.drop off).take size

/-- Tail of `open_file` (lines 208-221): the NULL-cursor check and the
initial PCR extraction.  With `ts_size ≠ 188` (including the untouched
`ts_size = 0` of the short-read path) the M2TS arm reads at `ptr + 4`,
exactly as the source's final `if` does. -/
def open_file_finish (s : FI) : Option (Bool × FI) :=
  match s.ptr with
  | none => some (false, { s with logs := s.logs ++ ["first PCR is not found"] })
  | some p =>
    let pcr :=
      if s.ts_size = TS_PACKET_SIZE then calc_pcr (s.buffer.drop p)
      else calc_pcr (s.buffer.drop (p + 4))
    some (true, { s with pcr := pcr })

/-- `open_file` (lines 146-222).  The `none` result marks the undefined
dereference on the M2TS path: `start_time = m2ts_time(mod->input.ptr)`
is evaluated before `input.ptr` is checked against NULL, so a window
classified as M2TS whose PCR scan fails has no packet for that read. -/
def open_file (file : List Nat) (input_size : Nat) (s : FI) : Option (Bool × FI) :=
  let file_size := file.length
  let sc := skip_check s.skip file_size
  let s0 : FI := { s with file_size := file_size, skip := sc.1, logs := s.logs ++ sc.2 }
  let buf := preadBytes file input_size sc.1
  if buf.length ≠ input_size then
    -- short read: warn and fall through, skipping classification entirely
    open_file_finish { s0 with buffer := buf, logs := s0.logs ++ ["file is too small"] }
  else if byte buf 0 = 0x47 ∧ byte buf TS_PACKET_SIZE = 0x47 then
    open_file_finish
      { s0 with buffer := buf, ts_size := TS_PACKET_SIZE
                ptr := seek_pcr_188 buf input_size }
  else if byte buf 4 = 0x47 ∧ byte buf (4 + M2TS_PACKET_SIZE) = 0x47 then
    match seek_pcr_192 buf input_size with
    | none => none -- start_time := m2ts_time(NULL): undefined dereference
    | some p =>
      let start_time := m2ts_time (buf.drop p) / 1000
      let tail := preadBytes file M2TS_PACKET_SIZE (file_size - M2TS_PACKET_SIZE)
      let s1 : FI := { s0 with buffer := buf, ts_size := M2TS_PACKET_SIZE
                               ptr := some p, start_time := start_time }
      let s2 : FI :=
        if byte tail 4 ≠ 0x47 then
          { s1 with logs := s1.logs ++ ["failed to get M2TS file length"] }
        else
          { s1 with length := (m2ts_time tail / 1000 + 2 ^ 32 - start_time) % 2 ^ 32 }
      open_file_finish s2
  else
    some (false, { s0 with buffer := buf, logs := s0.logs ++ ["wrong file format"] })

/-- The producer-to-consumer queue fields of `module_data_t.sync`.
`ring` is the byte array `sync.buffer`; `signals` models the bytes
currently in flight on the socketpair wakeup channel (send appends,
recv takes the head). -/
structure SyncState where
  buffer_size : Nat
  buffer_count : Nat
  buffer_read : Nat
  buffer_write : Nat
  buffer_overflow : Nat
  ring : Nat → Nat
  signals : List Nat
  logs : List String

def syncInit : SyncState :=
  { buffer_size := TS_PACKET_SIZE * 2048, buffer_count := 0, buffer_read := 0
    buffer_write := 0, buffer_overflow := 0, ring := fun _ => 0
    signals := [], logs := [] }

/-- `sync_queue_push` (lines 224-256).  `none` is the NULL payload used
as the EOF command: a single 0xFF signal byte and no ring traffic. -/
def sync_queue_push (s : SyncState) (ts : Option (List Nat)) : SyncState :=
  match ts with
  | none => { s with signals := s.signals ++ [0xFF] }
  | some pkt =>
    if s.buffer_count ≥ s.buffer_size then
      { s with buffer_overflow := s.buffer_overflow + 1 }
    else
      let s1 :=
        if s.buffer_overflow ≠ 0 then
          { s with
              logs := s.logs ++
                ["sync buffer overflow. dropped " ++ toString s.buffer_overflow
                  ++ " packets"]
              buffer_overflow := 0 }
        else s
      let w := s1.buffer_write
      { s1 with
          ring := fun i => if w ≤ i ∧ i < w + TS_PACKET_SIZE then byte pkt (i - w)
                           else s1.ring i
          buffer_write :=
            if w + TS_PACKET_SIZE ≥ s1.buffer_size then 0 else w + TS_PACKET_SIZE
          buffer_count := s1.buffer_count + TS_PACKET_SIZE
          signals := s1.signals ++ [0] }

/-- `sync_queue_pop` (lines 258-280).  With no signal byte pending the
consumer blocks, so the state is unchanged; a 0xFF head invokes the EOF
callback and copies nothing. -/
def sync_queue_pop (s : SyncState) : SyncState × Option (List Nat) :=
  match s.signals with
  | [] => (s, none)
  | c :: rest =>
    if c = 0xFF then ({ s with signals := rest }, none)
    else
      let out := (List.range TS_PACKET_SIZE).map fun i => s.ring (s.buffer_read + i)
      ({ s with
           signals := rest
           buffer_read :=
             if s.buffer_read + TS_PACKET_SIZE ≥ s.buffer_size then 0
             else s.buffer_read + TS_PACKET_SIZE
           buffer_count := s.buffer_count - TS_PACKET_SIZE }, some out)

inductive SyncOp where
  | push : List Nat → SyncOp
  | pushEOF : SyncOp
  | pop : SyncOp

def sync_step (s : SyncState) : SyncOp → SyncState
  | SyncOp.push pkt => sync_queue_push s (some pkt)
  | SyncOp.pushEOF => sync_queue_push s none
  | SyncOp.pop => (sync_queue_pop s).1

def sync_run (ops : List SyncOp) : SyncState :=
  ops.foldl sync_step syncInit

/-- The producer-side variables of the refill fragment of `thread_loop`
(lines 340-361): `ptr` is `input.ptr - input.buffer`, `terminated`
models the `break` out of the pacing loop. -/
structure ProducerSt where
  skip : Nat
  ptr : Nat
  reposition : Bool
  terminated : Bool
  sync : SyncState

/-- Refill fragment of `thread_loop` (lines 340-361), entered when no
forward PCR was found in the window: slide the window, `pread`, and on a
short read either rewind (loop) or push the EOF sentinel and break. -/
def thread_refill (loop : Bool) (file : List Nat) (input_size : Nat)
    (p : ProducerSt) : ProducerSt :=
  let skip1 := p.skip + p.ptr
  let len := min input_size (file.length - skip1)
  let p1 : ProducerSt := { p with skip := skip1, ptr := 0 }
  if len ≠ input_size then
    if loop = false then
      { p1 with sync := sync_queue_push p1.sync none, terminated := true }
    else
      { p1 with skip := 0, reposition := true }
  else p1

/-- The stream-syncing accumulators of `thread_loop`.  `time_sync_b` is
the monotonic microsecond reading at block start; the `Rat` fields model
the C doubles (exact for every value this fragment manipulates). -/
structure LoopSync where
  time_sync_b : Nat
  block_time_total : Rat
  total_sync_diff : Rat
  pause_total : Rat
  deriving DecidableEq

/-- Lines 440-452 of `thread_loop`: the new `total_sync_diff` and the log
it emits.  A clock reading below the stored block-start reading is the
timetravel case. -/
def stream_sync_diff (v : LoopSync) (time_sync_e : Nat) : Rat × List String :=
  if time_sync_e < v.time_sync_b then
    (-1000000, ["timetravel detected"])
  else
    (v.block_time_total - ((time_sync_e - v.time_sync_b : Nat) : Rat) / 1000
      - v.pause_total, [])

/-- Lines 440-462 of `thread_loop`: the diff computation followed by the
out-of-range reset (`now2` models the fresh `asc_utime()` call of the
reset branch; the numeric part of the log format is omitted). -/
def stream_sync (v : LoopSync) (time_sync_e now2 : Nat) : LoopSync × List String :=
  let d := stream_sync_diff v time_sync_e
  if d.1 < -100 ∨ d.1 > 100 then
    ({ time_sync_b := now2, block_time_total := 0, total_sync_diff := 0
       pause_total := 0 },
     d.2 ++ ["wrong syncing time. reset time values"])
  else
    ({ v with total_sync_diff := d.1 }, d.2)

/-- `method_position` (lines 511-535).  `arg = none` is a nil Lua
argument; the value is the number pushed back to Lua.  All the
`uint32_t` arithmetic of the source is taken modulo 2^32.  `none` marks
the undefined `m2ts_time(mod->input.ptr)` dereference of a NULL cursor. -/
def method_position (arg : Option Nat) (s : FI) : Option (Nat × FI) :=
  match arg with
  | none => some (0, s)
  | some v =>
    let pos := v % 2 ^ 32
    if pos ≥ s.length ∨ s.ts_size ≠ M2TS_PACKET_SIZE then some (0, s)
    else
      match s.ptr with
      | none => none
      | some p =>
        let ts_count := (s.file_size / M2TS_PACKET_SIZE) % 2 ^ 32
        let ts_skip := (pos * ts_count) % 2 ^ 32 / s.length
        let curr_time := m2ts_time (s.buffer.drop p) / 1000
        some ((curr_time + 2 ^ 32 - s.start_time % 2 ^ 32) % 2 ^ 32,
          { s with reposition := true
                   skip := ts_skip * M2TS_PACKET_SIZE % 2 ^ 32 })

/-- `timer_skip_set` (lines 482-495): the bytes written to the lock file,
`sprintf("%lu", skip)` — plain decimal ASCII, no sign, no padding. -/
def timer_skip_set (skip : Nat) : List Nat :=
  if skip = 0 then [48] else ((Nat.digits 10 skip).map (· + 48)).reverse

/-- Digit-consuming loop of `strtoul` in base 10. -/
def parse_digits : List Nat → Nat → Nat
  | [], acc => acc
  | c :: cs, acc =>
    if 48 ≤ c ∧ c ≤ 57 then parse_digits cs (acc * 10 + (c - 48)) else acc

/-- `strtoul` clamps an overflowing value to ULONG_MAX. -/
def strtoul_clamp (v : Nat) : Nat := if v < 2 ^ 64 then v else 2 ^ 64 - 1

def isSpaceB (c : Nat) : Bool := c == 32 || (decide (9 ≤ c) && decide (c ≤ 13))

/-- `strtoul(str, NULL, 10)`: optional whitespace, optional sign (a
minus negates modulo 2^64), then decimal digits; no digits yields 0. -/
def strtoul10 (cs : List Nat) : Nat :=
  match cs.dropWhile isSpaceB with
  | [] => 0
  | c :: rest =>
    if c = 43 then strtoul_clamp (parse_digits rest 0)
    else if c = 45 then (2 ^ 64 - strtoul_clamp (parse_digits rest 0)) % 2 ^ 64
    else strtoul_clamp (parse_digits (c :: rest) 0)

/-- Lock-file read of `module_init` (lines 565-575): up to 64 bytes, and
`strtoul` of them if the read returned anything; no log is emitted on
this path (second component). -/
def module_init_skip (lockContent : Option (List Nat)) : Nat × List String :=
  match lockContent with
  | none => (0, [])
  | some cs =>
    let r := cs.take 64
    if r.length > 0 then (strtoul10 r, []) else (0, [])

/-- Lock round trip: `timer_skip_set` writes the offset, a restart reads
it back in `module_init`, and `open_file`'s skip check (`skip_check`)
vets it against the file size. -/
def lock_roundtrip (skip file_size : Nat) : Nat × List String :=
  skip_check (module_init_skip (some (timer_skip_set skip))).1 file_size

def head_digit (cs : List Nat) : Bool :=
  match cs with
  | c :: _ => decide (48 ≤ c) && decide (c ≤ 57)
  | [] => false

/-- The leading bytes form a number in the sense of `strtoul`:
after optional whitespace and an optional sign there is a digit. -/
def forms_number (cs : List Nat) : Bool :=
  match cs.dropWhile isSpaceB with
  | [] => false
  | c :: rest =>
    if c = 43 ∨ c = 45 then head_digit rest else head_digit (c :: rest)

/-- One M2TS cell: 4-byte big-endian timestamp, then a PCR-free TS packet. -/
def m2cell (t : Nat) : List Nat :=
  [t / 2 ^ 24 % 256, t / 2 ^ 16 % 256, t / 2 ^ 8 % 256, t % 256]
    ++ (0x47 :: List.replicate 187 0)

/-- The S2 scenario file: three cells timestamped 1000000, 2000000, 11000000. -/
def s2file : List Nat := m2cell 1000000 ++ m2cell 2000000 ++ m2cell 11000000

/-- A 188-byte TS packet whose header satisfies `check_pcr`. -/
def pcr_packet : List Nat :=
  0x47 :: 0 :: 0 :: 0x20 :: 7 :: 0x10 :: List.replicate 182 0

/-- Two PCR-bearing packets back to back: the very first packet of the
window already satisfies `check_pcr`. -/
def c6file : List Nat := pcr_packet ++ pcr_packet

/-- Two PCR-free M2TS cells: classified as M2TS, but the PCR scan fails. -/
def c8file : List Nat := m2cell 0 ++ m2cell 0

/-- An M2TS state large enough that `pos * ts_count` overflows uint32:
a file of 2^31 cells and a 16 ms length. -/
def c4state : FI :=
  { file_size := 192 * 2 ^ 31, skip := 0, ts_size := 192, start_time := 0
    length := 16, buffer := [0, 0, 0, 0], ptr := some 0, pcr := 0
    reposition := false, logs := [] }

/-- A small M2TS state for exercising the seek branch of `position`. -/
def c4stateW : FI :=
  { file_size := 1920, skip := 0, ts_size := 192, start_time := 0
    length := 10, buffer := [0, 0, 0, 0], ptr := some 0, pcr := 0
    reposition := false, logs := [] }

/-- A sync queue whose ring is exactly full. -/
def sFullSync : SyncState := { syncInit with buffer_count := TS_PACKET_SIZE * 2048 }

/-- A producer state about to refill at the start of an empty file. -/
def pEmptyProd : ProducerSt :=
  { skip := 0, ptr := 0, reposition := false, terminated := false, sync := syncInit }

/-- An M2TS cell whose TS part carries a PCR. -/
def m2pcr_cell : List Nat := [0, 0, 0, 0] ++ pcr_packet

/-- A PCR-free first cell followed by a PCR cell. -/
def c6m2file : List Nat := m2cell 0 ++ m2pcr_cell

/-- The state `open_file` produces on `c6file` with a 376-byte window. -/
def c6result : FI :=
  { file_size := 376, skip := 0, ts_size := 188, start_time := 0, length := 0
    buffer := c6file, ptr := some 188, pcr := 0, reposition := false, logs := [] }

/-- The state `open_file` produces on `c6m2file` with a 384-byte window. -/
def c6m2result : FI :=
  { file_size := 384, skip := 0, ts_size := 192, start_time := 0, length := 0
    buffer := c6m2file, ptr := some 192, pcr := 0, reposition := false, logs := [] }

/-! ## Theorems -/

/-- Claim C10: calling `position()` with a nil argument returns 0 and
leaves the whole state unchanged: no reposition, no `file_skip` change. -/
theorem C10_position_nil_noop (s : FI) : method_position none s = some (0, s) := rfl

/-- Claim C3: when the refill `pread` of the pacing loop comes back short,
a looping input resets `file_skip` to 0, raises `reposition` and pushes no
sentinel; a non-looping input pushes exactly one 0xFF signal byte, touches
no ring state, and breaks out of the producer loop. -/
theorem C3_refill_eof (loop : Bool) (file : List Nat) (input_size : Nat)
    (p : ProducerSt)
    (hshort : min input_size (file.length - (p.skip + p.ptr)) < input_size) :
    (loop = true →
        ((thread_refill loop file input_size p).skip = 0
      ∧ (thread_refill loop file input_size p).reposition = true
      ∧ (thread_refill loop file input_size p).sync = p.sync
      ∧ (thread_refill loop file input_size p).terminated = p.terminated))
  ∧ (loop = false →
        ((thread_refill loop file input_size p).sync.signals
            = p.sync.signals ++ [0xFF]
      ∧ (thread_refill loop file input_size p).sync.buffer_count
            = p.sync.buffer_count
      ∧ (thread_refill loop file input_size p).sync.ring = p.sync.ring
      ∧ (thread_refill loop file input_size p).sync.buffer_write
            = p.sync.buffer_write
      ∧ (thread_refill loop file input_size p).terminated = true)) := by
  have hne : min input_size (file.length - (p.skip + p.ptr)) ≠ input_size :=
    Nat.ne_of_lt hshort
  constructor
  · intro hl
    simp [thread_refill, hne, hl]
  · intro hl
    simp [thread_refill, hne, hl, sync_queue_push]

theorem C3_refill_eof_witness :
    ((thread_refill true [] 1 pEmptyProd).skip = 0
  ∧ (thread_refill true [] 1 pEmptyProd).reposition = true
  ∧ (thread_refill true [] 1 pEmptyProd).sync = pEmptyProd.sync
  ∧ (thread_refill true [] 1 pEmptyProd).terminated = pEmptyProd.terminated)
  ∧ ((thread_refill false [] 1 pEmptyProd).sync.signals
        = pEmptyProd.sync.signals ++ [0xFF]
  ∧ (thread_refill false [] 1 pEmptyProd).sync.buffer_count
        = pEmptyProd.sync.buffer_count
  ∧ (thread_refill false [] 1 pEmptyProd).sync.ring = pEmptyProd.sync.ring
  ∧ (thread_refill false [] 1 pEmptyProd).sync.buffer_write
        = pEmptyProd.sync.buffer_write
  ∧ (thread_refill false [] 1 pEmptyProd).terminated = true) :=
  ⟨(C3_refill_eof true [] 1 pEmptyProd (by decide)).1 rfl,
   (C3_refill_eof false [] 1 pEmptyProd (by decide)).2 rfl⟩

/-- Claim C5 counterexample: in the timetravel branch the code assigns
`total_sync_diff = -1000000.0`, not the −1000 the claim states, and the
immediately following range check resets it to 0. -/
theorem C5_counterexample :
    stream_sync_diff ⟨200, 0, 0, 0⟩ 100 = (-1000000, ["timetravel detected"])
  ∧ stream_sync ⟨200, 0, 0, 0⟩ 100 300 =
      (⟨300, 0, 0, 0⟩, ["timetravel detected", "wrong syncing time. reset time values"])
  ∧ ((-1000000 : Rat) = -1000 → False) := by
  refine ⟨by decide, by decide, by decide⟩

/-- Claim C5 amended: on a backward monotonic clock reading the loop logs
"timetravel detected" and assigns `total_sync_diff = -1000000.0` (ms);
the out-of-range check that follows immediately logs the syncing warning
and resets the accumulators, so the next block starts from 0. -/
theorem C5_timetravel_amended (v : LoopSync) (e n2 : Nat)
    (h : e < v.time_sync_b) :
    stream_sync_diff v e = (-1000000, ["timetravel detected"])
  ∧ (stream_sync v e n2).1 = ⟨n2, 0, 0, 0⟩
  ∧ (stream_sync v e n2).2
      = ["timetravel detected", "wrong syncing time. reset time values"] := by
  have h1 : stream_sync_diff v e = (-1000000, ["timetravel detected"]) := by
    simp [stream_sync_diff, h]
  refine ⟨h1, ?_, ?_⟩ <;> simp [stream_sync, h1] <;> norm_num

theorem C5_timetravel_amended_witness :
    stream_sync_diff ⟨500, 0, 0, 0⟩ 400 = (-1000000, ["timetravel detected"])
  ∧ (stream_sync ⟨500, 0, 0, 0⟩ 400 600).1 = ⟨600, 0, 0, 0⟩
  ∧ (stream_sync ⟨500, 0, 0, 0⟩ 400 600).2
      = ["timetravel detected", "wrong syncing time. reset time values"] :=
  C5_timetravel_amended ⟨500, 0, 0, 0⟩ 400 600 (by decide)

/-- Digit-free head means `parse_digits` accumulates nothing. -/
theorem parse_digits_zero (cs : List Nat) (h : head_digit cs = false) :
    parse_digits cs 0 = 0 := by
  cases cs with
  | nil => rfl
  | cons c rest =>
    unfold head_digit at h
    unfold parse_digits
    have : ¬(48 ≤ c ∧ c ≤ 57) := by
      intro hc
      simp [hc.1, hc.2] at h
    simp [this]

/-- Non-numeric leading bytes make `strtoul` return 0. -/
theorem strtoul10_eq_zero (cs : List Nat) (h : forms_number cs = false) :
    strtoul10 cs = 0 := by
  unfold forms_number at h
  unfold strtoul10
  cases hd : cs.dropWhile isSpaceB with
  | nil => rfl
  | cons c rest =>
    rw [hd] at h
    by_cases h43 : c = 43
    · have h45 : ¬c = 45 := by omega
      simp [h43] at h ⊢
      simp [parse_digits_zero rest h, strtoul_clamp]
    · by_cases h45 : c = 45
      · simp [h43, h45] at h ⊢
        simp [parse_digits_zero rest h, strtoul_clamp]
      · have : ¬(c = 43 ∨ c = 45) := by
          intro hc
          rcases hc with hc | hc <;> omega
        simp [this] at h
        simp [h43, h45, parse_digits_zero (c :: rest) h, strtoul_clamp]

/-- Claim C9: a configured lock file whose leading bytes are not a decimal
number is parsed by `strtoul` to 0: the initial offset is 0 and nothing is
logged. -/
theorem C9_bad_lock_content (cs : List Nat) (hne : cs ≠ [])
    (h : forms_number (cs.take 64) = false) :
    module_init_skip (some cs) = (0, []) := by
  unfold module_init_skip
  have hlen : (cs.take 64).length > 0 := by
    have : cs.length > 0 := List.length_pos.mpr hne
    simp [List.length_take]
    omega
  simp [hlen, strtoul10_eq_zero (cs.take 64) h]

theorem C9_bad_lock_content_witness :
    module_init_skip (some [97, 98, 99]) = (0, []) :=
  C9_bad_lock_content [97, 98, 99] (by decide) (by decide)

/-- One step of the queue preserves the signal-byte accounting: the bytes
in the ring are exactly 188 per pending non-sentinel signal byte. -/
theorem sync_step_invariant (s : SyncState) (op : SyncOp)
    (h : s.buffer_count
        = TS_PACKET_SIZE * List.countP (fun c => c != 0xFF) s.signals) :
    (sync_step s op).buffer_count
      = TS_PACKET_SIZE * List.countP (fun c => c != 0xFF) (sync_step s op).signals := by
  cases op with
  | push pkt =>
    show (sync_queue_push s (some pkt)).buffer_count
        = TS_PACKET_SIZE
            * List.countP (fun c => c != 0xFF) (sync_queue_push s (some pkt)).signals
    simp only [sync_queue_push]
    by_cases hfull : s.buffer_count ≥ s.buffer_size
    · rw [if_pos hfull]
      exact h
    · rw [if_neg hfull]
      by_cases hov : s.buffer_overflow ≠ 0 <;>
        simp [hov, List.countP_append, h, Nat.mul_add]
  | pushEOF =>
    show (sync_queue_push s none).buffer_count
        = TS_PACKET_SIZE
            * List.countP (fun c => c != 0xFF) (sync_queue_push s none).signals
    simp only [sync_queue_push]
    simp [List.countP_append, h]
  | pop =>
    show (sync_queue_pop s).1.buffer_count
        = TS_PACKET_SIZE * List.countP (fun c => c != 0xFF) (sync_queue_pop s).1.signals
    unfold sync_queue_pop
    cases hs : s.signals with
    | nil => simpa [hs] using h
    | cons c rest =>
      rw [hs] at h
      by_cases hc : c = 0xFF
      · simp [hc, List.countP_cons] at h ⊢
        exact h
      · have hcb : (c != 0xFF) = true := by simpa using hc
        simp [List.countP_cons, hcb] at h
        rw [Nat.mul_add, Nat.mul_one] at h
        simp [hc, List.countP_cons, hcb]
        omega

/-- The accounting holds after any operation sequence from the initial
state. -/
theorem sync_run_invariant (ops : List SyncOp) :
    (sync_run ops).buffer_count
      = TS_PACKET_SIZE * List.countP (fun c => c != 0xFF) (sync_run ops).signals := by
  unfold sync_run
  have general :
      ∀ (l : List SyncOp) (s : SyncState),
        s.buffer_count = TS_PACKET_SIZE * List.countP (fun c => c != 0xFF) s.signals →
        (l.foldl sync_step s).buffer_count
          = TS_PACKET_SIZE
              * List.countP (fun c => c != 0xFF) (l.foldl sync_step s).signals := by
    intro l
    induction l with
    | nil => intro s hsi; simpa using hsi
    | cons op tl ih =>
      intro s hsi
      exact ih (sync_step s op) (sync_step_invariant s op hsi)
  exact general ops syncInit (by simp [syncInit])

/-- Claim C2: a push with a non-null payload either drops (full ring:
overflow incremented, nothing stored, no signal byte) or copies 188 bytes
at `write_idx`, advances `write_idx` (modulo the capacity when aligned),
adds 188 to `fill`, appends exactly one 0x00 signal byte, and logs the
exact drop count on the first successful push after drops; and over any
sequence of pushes and pops the bytes in the ring are exactly 188 per
pending non-sentinel signal byte. -/
theorem C2_sync_queue_push :
    (∀ (s : SyncState) (pkt : List Nat), s.buffer_count ≥ s.buffer_size →
        sync_queue_push s (some pkt) = { s with buffer_overflow := s.buffer_overflow + 1 })
  ∧ (∀ (s : SyncState) (pkt : List Nat), s.buffer_count < s.buffer_size →
        ((sync_queue_push s (some pkt)).buffer_count = s.buffer_count + TS_PACKET_SIZE
      ∧ (sync_queue_push s (some pkt)).signals = s.signals ++ [0]
      ∧ (∀ i, i < TS_PACKET_SIZE →
            (sync_queue_push s (some pkt)).ring (s.buffer_write + i) = byte pkt i)
      ∧ (∀ i, i < s.buffer_write ∨ s.buffer_write + TS_PACKET_SIZE ≤ i →
            (sync_queue_push s (some pkt)).ring i = s.ring i)
      ∧ (sync_queue_push s (some pkt)).buffer_write =
          (if s.buffer_write + TS_PACKET_SIZE ≥ s.buffer_size then 0
           else s.buffer_write + TS_PACKET_SIZE)
      ∧ (TS_PACKET_SIZE ∣ s.buffer_size → TS_PACKET_SIZE ∣ s.buffer_write →
          s.buffer_write < s.buffer_size →
          (sync_queue_push s (some pkt)).buffer_write =
            (s.buffer_write + TS_PACKET_SIZE) % s.buffer_size)
      ∧ (sync_queue_push s (some pkt)).buffer_overflow = 0
      ∧ (s.buffer_overflow ≠ 0 →
          (sync_queue_push s (some pkt)).logs = s.logs ++
            ["sync buffer overflow. dropped " ++ toString s.buffer_overflow ++ " packets"])
      ∧ (s.buffer_overflow = 0 → (sync_queue_push s (some pkt)).logs = s.logs)))
  ∧ (∀ ops : List SyncOp,
        (sync_run ops).buffer_count
          = TS_PACKET_SIZE * List.countP (fun c => c != 0xFF) (sync_run ops).signals) := by
  refine ⟨?_, ?_, sync_run_invariant⟩
  · intro s pkt hfull
    simp only [sync_queue_push]
    rw [if_pos hfull]
  · intro s pkt hroom
    have hfull : ¬s.buffer_count ≥ s.buffer_size := Nat.not_le.mpr hroom
    have hmod : TS_PACKET_SIZE ∣ s.buffer_size → TS_PACKET_SIZE ∣ s.buffer_write →
        s.buffer_write < s.buffer_size →
        (if s.buffer_write + TS_PACKET_SIZE ≥ s.buffer_size then 0
         else s.buffer_write + TS_PACKET_SIZE)
          = (s.buffer_write + TS_PACKET_SIZE) % s.buffer_size := by
      intro hd1 hd2 hlt
      obtain ⟨a, ha⟩ := hd1
      obtain ⟨b, hb⟩ := hd2
      have hle : s.buffer_write + TS_PACKET_SIZE ≤ s.buffer_size := by
        have hab : b < a := by
          by_contra hba
          push_neg at hba
          have := Nat.mul_le_mul_left TS_PACKET_SIZE hba
          omega
        have : b + 1 ≤ a := hab
        have := Nat.mul_le_mul_left TS_PACKET_SIZE this
        simp [Nat.mul_add] at this
        omega
      rcases Nat.lt_or_ge (s.buffer_write + TS_PACKET_SIZE) s.buffer_size with hc | hc
      · rw [if_neg (by omega), Nat.mod_eq_of_lt hc]
      · have heq : s.buffer_write + TS_PACKET_SIZE = s.buffer_size := by omega
        rw [if_pos (by omega), heq, Nat.mod_self]
    have hpush : sync_queue_push s (some pkt) =
        { s with
            buffer_count := s.buffer_count + TS_PACKET_SIZE
            buffer_write :=
              if s.buffer_write + TS_PACKET_SIZE ≥ s.buffer_size then 0
              else s.buffer_write + TS_PACKET_SIZE
            buffer_overflow := 0
            ring := fun i =>
              if s.buffer_write ≤ i ∧ i < s.buffer_write + TS_PACKET_SIZE then
                byte pkt (i - s.buffer_write)
              else s.ring i
            signals := s.signals ++ [0]
            logs :=
              if s.buffer_overflow ≠ 0 then
                s.logs ++
                  ["sync buffer overflow. dropped " ++ toString s.buffer_overflow
                    ++ " packets"]
              else s.logs } := by
      simp only [sync_queue_push]
      rw [if_neg hfull]
      by_cases hov : s.buffer_overflow ≠ 0
      · simp [hov]
      · push_neg at hov
        simp [hov]
    refine ⟨?_, ?_, ?_, ?_, ?_, ?_, ?_, ?_, ?_⟩
    · rw [hpush]
    · rw [hpush]
    · intro i hi
      rw [hpush]
      have h1 : s.buffer_write ≤ s.buffer_write + i := Nat.le_add_right _ _
      have h2 : s.buffer_write + i < s.buffer_write + TS_PACKET_SIZE := by omega
      show (if s.buffer_write ≤ s.buffer_write + i ∧
              s.buffer_write + i < s.buffer_write + TS_PACKET_SIZE then
              byte pkt (s.buffer_write + i - s.buffer_write)
            else s.ring (s.buffer_write + i)) = byte pkt i
      rw [if_pos ⟨h1, h2⟩]
      congr 1
      omega
    · intro i hi
      rw [hpush]
      have hni : ¬(s.buffer_write ≤ i ∧ i < s.buffer_write + TS_PACKET_SIZE) := by
        omega
      show (if s.buffer_write ≤ i ∧ i < s.buffer_write + TS_PACKET_SIZE then
              byte pkt (i - s.buffer_write)
            else s.ring i) = s.ring i
      rw [if_neg hni]
    · rw [hpush]
    · intro hd1 hd2 hlt
      rw [hpush]
      exact hmod hd1 hd2 hlt
    · rw [hpush]
    · intro hov2
      rw [hpush]
      simp [hov2]
    · intro hov2
      rw [hpush]
      simp [hov2]

theorem C2_sync_queue_push_witness :
    sync_queue_push sFullSync (some [])
        = { sFullSync with buffer_overflow := sFullSync.buffer_overflow + 1 }
  ∧ (sync_queue_push syncInit (some [])).signals = syncInit.signals ++ [0]
  ∧ (sync_run [SyncOp.push [], SyncOp.pop]).buffer_count
      = TS_PACKET_SIZE
          * List.countP (fun c => c != 0xFF)
              (sync_run [SyncOp.push [], SyncOp.pop]).signals :=
  ⟨C2_sync_queue_push.1 sFullSync [] (by decide),
   (C2_sync_queue_push.2.1 syncInit [] (by decide)).2.1,
   C2_sync_queue_push.2.2 [SyncOp.push [], SyncOp.pop]⟩

/-- `parse_digits` on an all-digit list is a left fold. -/
theorem parse_digits_eq_foldl (cs : List Nat) (acc : Nat)
    (h : ∀ c ∈ cs, 48 ≤ c ∧ c ≤ 57) :
    parse_digits cs acc = cs.foldl (fun a c => a * 10 + (c - 48)) acc := by
  induction cs generalizing acc with
  | nil => rfl
  | cons c rest ih =>
    have hc := h c (List.mem_cons_self c rest)
    unfold parse_digits
    rw [if_pos hc]
    simp only [List.foldl_cons]
    exact ih (acc * 10 + (c - 48)) fun d hd => h d (List.mem_cons_of_mem c hd)

/-- Folding a reversed digit list most-significant-first recovers the
little-endian value. -/
theorem foldl_base10 (ds : List Nat) (acc : Nat) :
    List.foldl (fun a d => a * 10 + d) acc ds.reverse
      = acc * 10 ^ ds.length + Nat.ofDigits 10 ds := by
  induction ds generalizing acc with
  | nil => simp [Nat.ofDigits]
  | cons d tl ih =>
    rw [List.reverse_cons, List.foldl_append]
    simp only [List.foldl_cons, List.foldl_nil, ih]
    rw [Nat.ofDigits_cons]
    simp only [List.length_cons, pow_succ]
    ring

/-- The decimal image of a 64-bit offset is at most 20 < 64 bytes. -/
theorem timer_skip_set_len (n : Nat) (hn : n < 2 ^ 64) :
    (timer_skip_set n).length ≤ 64 := by
  unfold timer_skip_set
  by_cases h0 : n = 0
  · simp [h0]
  · rw [if_neg h0]
    simp only [List.length_reverse, List.length_map]
    have hle := Nat.base_pow_length_digits_le 10 n (by norm_num) h0
    by_contra hgt
    push_neg at hgt
    have hp : (10 : Nat) ^ 65 ≤ 10 ^ (Nat.digits 10 n).length :=
      Nat.pow_le_pow_right (by norm_num) (by omega)
    have h10 : (10 : Nat) ^ 65 ≤ 10 * n := le_trans hp hle
    have hbig : 10 * 2 ^ 64 ≤ 10 ^ 65 := by
      have h2 : (2 : Nat) ^ 64 ≤ 10 ^ 64 := Nat.pow_le_pow_left (by norm_num) 64
      calc 10 * 2 ^ 64 ≤ 10 * 10 ^ 64 := by omega
        _ = 10 ^ 65 := by ring
    omega

/-- `strtoul` recovers exactly the value `timer_skip_set` wrote. -/
theorem strtoul10_timer_skip_set (n : Nat) (hn : n < 2 ^ 64) :
    strtoul10 (timer_skip_set n) = n := by
  by_cases h0 : n = 0
  · subst h0; decide
  · have hdig : ∀ c ∈ ((Nat.digits 10 n).map (· + 48)).reverse, 48 ≤ c ∧ c ≤ 57 := by
      intro c hc
      rw [List.mem_reverse] at hc
      simp only [List.mem_map] at hc
      obtain ⟨d, hd, rfl⟩ := hc
      have := Nat.digits_lt_base (by norm_num) hd
      omega
    have hne : ((Nat.digits 10 n).map (· + 48)).reverse ≠ [] := by
      simp [Nat.digits_ne_nil_iff_ne_zero.mpr h0]
    cases hLc : ((Nat.digits 10 n).map (· + 48)).reverse with
    | nil => exact absurd hLc hne
    | cons c rest =>
      have hc : 48 ≤ c ∧ c ≤ 57 := hdig c (by rw [hLc]; exact List.mem_cons_self c rest)
      have hsp : isSpaceB c = false := by
        unfold isSpaceB
        have h1 : (c == 32) = false := by simp; omega
        have h2 : decide (c ≤ 13) = false := by simp; omega
        rw [h1, h2]
        simp
      have hdw : List.dropWhile isSpaceB (((Nat.digits 10 n).map (· + 48)).reverse)
          = c :: rest := by
        rw [hLc, List.dropWhile_cons, hsp]
        simp
      have h43 : ¬c = 43 := by omega
      have h45 : ¬c = 45 := by omega
      unfold timer_skip_set
      rw [if_neg h0]
      simp only [strtoul10, hdw]
      rw [if_neg h43, if_neg h45]
      rw [← hLc]
      rw [parse_digits_eq_foldl _ 0 hdig]
      rw [← List.map_reverse, List.foldl_map]
      simp only [Nat.add_sub_cancel]
      rw [foldl_base10]
      simp only [Nat.ofDigits_digits, Nat.zero_mul, Nat.zero_add]
      unfold strtoul_clamp
      rw [if_pos hn]

/-- Claim C7 counterexample: with stored value 0 and an empty file
(`file_size = 0`) the stored value is ≥ file_size, yet the round trip
logs no warning — the source only checks a nonzero skip. -/
theorem C7_counterexample :
    (0 : Nat) ≥ 0
  ∧ lock_roundtrip 0 0 = (0, [])
  ∧ (("skip value is greater than the file size" ∈ (lock_roundtrip 0 0).2) → False) := by
  refine ⟨le_refl 0, by decide, by decide⟩

/-- Claim C7 amended: the lock round trip restores exactly the written
`file_skip` when it is below `file_size`; a nonzero stored value at or
above `file_size` is reset to 0 with the warning; a stored 0 is accepted
silently even when `file_size = 0`. -/
theorem C7_lock_roundtrip_amended (skip file_size : Nat) (h64 : skip < 2 ^ 64) :
    (skip < file_size → lock_roundtrip skip file_size = (skip, []))
  ∧ (skip ≠ 0 → file_size ≤ skip →
      lock_roundtrip skip file_size
        = (0, ["skip value is greater than the file size"]))
  ∧ (skip = 0 → lock_roundtrip skip file_size = (0, [])) := by
  have hlen := timer_skip_set_len skip h64
  have htake : (timer_skip_set skip).take 64 = timer_skip_set skip :=
    List.take_of_length_le hlen
  have hpos : (timer_skip_set skip).length > 0 := by
    unfold timer_skip_set
    by_cases h0 : skip = 0
    · simp [h0]
    · rw [if_neg h0]
      simp only [List.length_reverse, List.length_map]
      exact List.length_pos.mpr (Nat.digits_ne_nil_iff_ne_zero.mpr h0)
  have hinit : module_init_skip (some (timer_skip_set skip)) = (skip, []) := by
    simp only [module_init_skip, htake]
    rw [if_pos hpos, strtoul10_timer_skip_set skip h64]
  refine ⟨?_, ?_, ?_⟩
  · intro h
    unfold lock_roundtrip
    rw [hinit]
    unfold skip_check
    by_cases h0 : skip = 0
    · simp [h0]
    · rw [if_pos h0, if_neg (by omega)]
  · intro h0 hge
    unfold lock_roundtrip
    rw [hinit]
    unfold skip_check
    rw [if_pos h0, if_pos hge]
  · intro h0
    unfold lock_roundtrip
    rw [hinit]
    unfold skip_check
    simp [h0]

theorem C7_lock_roundtrip_amended_witness :
    lock_roundtrip 5 10 = (5, [])
  ∧ lock_roundtrip 7 3 = (0, ["skip value is greater than the file size"])
  ∧ lock_roundtrip 0 99 = (0, []) :=
  ⟨(C7_lock_roundtrip_amended 5 10 (by decide)).1 (by decide),
   (C7_lock_roundtrip_amended 7 3 (by decide)).2.1 (by decide) (by decide),
   (C7_lock_roundtrip_amended 0 99 (by decide)).2.2 rfl⟩

/-- Claim C1 amended: for every file shorter than the input window
(opened with `file_skip = 0`), `open_file` logs "file is too small" and
then skips probing entirely — the format is not classified, no PCR scan
runs, and `ts_size`, `start_time`, `length` and the cursor keep their
prior values; the function still succeeds using the stale cursor. -/
theorem C1_short_read_amended (file : List Nat) (input_size : Nat) (s : FI) (p : Nat)
    (hskip : s.skip = 0) (hshort : file.length < input_size)
    (hptr : s.ptr = some p) :
    open_file file input_size s =
      some (true,
        { s with
            file_size := file.length
            skip := 0
            buffer := file
            logs := s.logs ++ ["file is too small"]
            pcr :=
              if s.ts_size = TS_PACKET_SIZE then calc_pcr (file.drop p)
              else calc_pcr (file.drop (p + 4)) }) := by
  have hbuf : preadBytes file input_size 0 = file := by
    unfold preadBytes
    rw [List.drop_zero]
    exact List.take_of_length_le (le_of_lt hshort)
  have hlen : ¬file.length = input_size := Nat.ne_of_lt hshort
  unfold open_file
  rw [hskip]
  simp only [skip_check, ne_eq, not_true_eq_false, if_false, ite_self]
  rw [hbuf]
  rw [if_pos hlen]
  simp only [open_file_finish, hptr, List.append_nil]

theorem C1_short_read_amended_witness :
    open_file [0x47] 2 initFI =
      some (true,
        { initFI with
            file_size := 1
            skip := 0
            buffer := [0x47]
            logs := initFI.logs ++ ["file is too small"]
            pcr :=
              if initFI.ts_size = TS_PACKET_SIZE then calc_pcr ([0x47].drop 0)
              else calc_pcr ([0x47].drop (0 + 4)) }) :=
  C1_short_read_amended [0x47] 2 initFI 0 rfl (by decide) rfl

set_option maxRecDepth 40000 in
/-- Claim C1 counterexample: the S2 file (three M2TS cells timestamped
1000000 / 2000000 / 11000000), shorter than a 2 MiB window, is not probed
at all: `open_file` warns "file is too small" and leaves
`start_time = 0` and `length = 0` instead of the claimed 1000 / 10000. -/
theorem C1_counterexample :
    (open_file s2file 2097152 initFI).map
        (fun r => (r.1, r.2.start_time, r.2.length, r.2.ts_size, r.2.logs))
      = some (true, 0, 0, 0, ["file is too small"])
  ∧ ((open_file s2file 2097152 initFI).map (fun r => r.2.start_time) = some 1000
      → False) := by
  refine ⟨by decide, by decide⟩

/-- Claim C8: whenever a full window is classified as M2TS but no cell
after the first satisfies `check_pcr`, `open_file`'s
`start_time = m2ts_time(input.ptr)` read dereferences the NULL result of
the scan before the "first PCR is not found" guard runs: the total
embedding has no packet for that read (`none`). -/
theorem C8_start_time_deref (file : List Nat) (input_size : Nat) (s : FI)
    (hskip : s.skip = 0)
    (hfull : (preadBytes file input_size 0).length = input_size)
    (hts : ¬(byte (preadBytes file input_size 0) 0 = 0x47
            ∧ byte (preadBytes file input_size 0) TS_PACKET_SIZE = 0x47))
    (hm2 : byte (preadBytes file input_size 0) 4 = 0x47
            ∧ byte (preadBytes file input_size 0) (4 + M2TS_PACKET_SIZE) = 0x47)
    (hseek : seek_pcr_192 (preadBytes file input_size 0) input_size = none) :
    open_file file input_size s = none := by
  unfold open_file
  rw [hskip]
  simp only [skip_check, ne_eq, not_true_eq_false, if_false, ite_self]
  rw [if_neg (by rw [hfull]; exact fun hc => hc rfl)]
  rw [if_neg hts, if_pos hm2, hseek]

set_option maxRecDepth 40000 in
theorem C8_start_time_deref_witness :
    open_file c8file 384 initFI = none :=
  C8_start_time_deref c8file 384 initFI rfl (by decide) (by decide) (by decide)
    (by decide)

/-- What a successful stride scan returns: the least probe offset at or
after the starting one (never the starting packet itself, since the scan
begins one stride in). -/
theorem seek_loop_fuel_spec (fuel : Nat) :
    ∀ (step endOff off o : Nat) (P : Nat → Bool),
      seek_loop_fuel fuel step P endOff off = some o →
      off ≤ o ∧ (∃ k, o = off + step * k) ∧ o < endOff ∧ P o = true
        ∧ ∀ j, (∃ k, j = off + step * k) → j < o → P j = false := by
  induction fuel with
  | zero =>
    intro step endOff off o P h
    exact absurd h (by simp [seek_loop_fuel])
  | succ n ih =>
    intro step endOff off o P h
    unfold seek_loop_fuel at h
    by_cases hlt : off < endOff
    · rw [if_pos hlt] at h
      by_cases hP : P off = true
      · rw [if_pos hP] at h
        injection h with h
        subst h
        refine ⟨le_refl _, ⟨0, by ring⟩, hlt, hP, ?_⟩
        intro j ⟨k, hj⟩ hjo
        omega
      · rw [if_neg hP] at h
        obtain ⟨h1, ⟨k, hk⟩, h3, h4, h5⟩ := ih step endOff (off + step) o P h
        have hPf : P off = false := by simpa using hP
        refine ⟨by omega, ⟨k + 1, by rw [hk, Nat.mul_succ]; omega⟩, h3, h4, ?_⟩
        intro j ⟨k0, hj⟩ hjo
        cases k0 with
        | zero =>
          simp only [Nat.mul_zero, Nat.add_zero] at hj
          rw [hj]
          exact hPf
        | succ k1 =>
          refine h5 j ⟨k1, ?_⟩ hjo
          rw [hj, Nat.mul_succ]
          omega
    · rw [if_neg hlt] at h
      exact absurd h (by simp)

/-- `seek_pcr_188` returns the first PCR-bearing packet strictly after
the starting packet (offset ≥ 188), never the starting packet itself. -/
theorem seek_pcr_188_first (buf : List Nat) (endOff o : Nat)
    (h : seek_pcr_188 buf endOff = some o) :
    TS_PACKET_SIZE ≤ o ∧ (∃ k, 1 ≤ k ∧ o = TS_PACKET_SIZE * k) ∧ o < endOff
      ∧ check_pcr (buf.drop o) = true
      ∧ ∀ k, 1 ≤ k → TS_PACKET_SIZE * k < o →
          check_pcr (buf.drop (TS_PACKET_SIZE * k)) = false := by
  unfold seek_pcr_188 seek_loop at h
  obtain ⟨h1, ⟨k, hk⟩, h3, h4, h5⟩ :=
    seek_loop_fuel_spec (endOff + 1) TS_PACKET_SIZE endOff TS_PACKET_SIZE o _ h
  simp only [TS_PACKET_SIZE] at h1 hk h5 ⊢
  refine ⟨h1, ⟨k + 1, by omega, by omega⟩, h3, h4, ?_⟩
  intro k1 hk1 hlt
  exact h5 (188 * k1) ⟨k1 - 1, by omega⟩ hlt

/-- `seek_pcr_192` returns the first PCR-bearing cell strictly after the
starting cell (offset ≥ 192), testing the TS header 4 bytes into each
cell. -/
theorem seek_pcr_192_first (buf : List Nat) (endOff o : Nat)
    (h : seek_pcr_192 buf endOff = some o) :
    M2TS_PACKET_SIZE ≤ o ∧ (∃ k, 1 ≤ k ∧ o = M2TS_PACKET_SIZE * k) ∧ o < endOff
      ∧ check_pcr (buf.drop (o + 4)) = true
      ∧ ∀ k, 1 ≤ k → M2TS_PACKET_SIZE * k < o →
          check_pcr (buf.drop (M2TS_PACKET_SIZE * k + 4)) = false := by
  unfold seek_pcr_192 seek_loop at h
  obtain ⟨h1, ⟨k, hk⟩, h3, h4, h5⟩ :=
    seek_loop_fuel_spec (endOff + 1) M2TS_PACKET_SIZE endOff M2TS_PACKET_SIZE o _ h
  simp only [M2TS_PACKET_SIZE] at h1 hk h5 ⊢
  refine ⟨h1, ⟨k + 1, by omega, by omega⟩, h3, h4, ?_⟩
  intro k1 hk1 hlt
  exact h5 (192 * k1) ⟨k1 - 1, by omega⟩ hlt

/-- Both arms of the `open_file` tail leave the cursor untouched. -/
theorem open_file_finish_ptr (s : FI) (r : Bool) (s2 : FI)
    (h : open_file_finish s = some (r, s2)) : s2.ptr = s.ptr := by
  unfold open_file_finish at h
  cases hp : s.ptr with
  | none =>
    rw [hp] at h
    simp only [Option.some.injEq, Prod.mk.injEq] at h
    rw [← h.2]
  | some p =>
    rw [hp] at h
    simp only [Option.some.injEq, Prod.mk.injEq] at h
    rw [← h.2]

/-- Claim C6 amended: on a TS-classified window the probe stores exactly
the result of `seek_pcr_188` as the cursor, on an M2TS-classified window
exactly the result of `seek_pcr_192`, and either stride scan returns the
first PCR-bearing packet at offset at least one whole stride — the packet
at the very start of the window is never examined (TS headers at offset 0
of a TS packet, offset 4 of an M2TS cell). -/
theorem C6_probe_cursor_amended :
    (∀ (file : List Nat) (input_size : Nat) (s : FI) (r : Bool) (s2 : FI),
        s.skip = 0 →
        (preadBytes file input_size 0).length = input_size →
        byte (preadBytes file input_size 0) 0 = 0x47 →
        byte (preadBytes file input_size 0) TS_PACKET_SIZE = 0x47 →
        open_file file input_size s = some (r, s2) →
        s2.ptr = seek_pcr_188 (preadBytes file input_size 0) input_size)
  ∧ (∀ (file : List Nat) (input_size : Nat) (s : FI) (r : Bool) (s2 : FI),
        s.skip = 0 →
        (preadBytes file input_size 0).length = input_size →
        ¬(byte (preadBytes file input_size 0) 0 = 0x47
          ∧ byte (preadBytes file input_size 0) TS_PACKET_SIZE = 0x47) →
        byte (preadBytes file input_size 0) 4 = 0x47 →
        byte (preadBytes file input_size 0) (4 + M2TS_PACKET_SIZE) = 0x47 →
        open_file file input_size s = some (r, s2) →
        s2.ptr = seek_pcr_192 (preadBytes file input_size 0) input_size)
  ∧ (∀ (buf : List Nat) (endOff o : Nat), seek_pcr_188 buf endOff = some o →
        TS_PACKET_SIZE ≤ o ∧ check_pcr (buf.drop o) = true
          ∧ ∀ k, 1 ≤ k → TS_PACKET_SIZE * k < o →
              check_pcr (buf.drop (TS_PACKET_SIZE * k)) = false)
  ∧ (∀ (buf : List Nat) (endOff o : Nat), seek_pcr_192 buf endOff = some o →
        M2TS_PACKET_SIZE ≤ o ∧ check_pcr (buf.drop (o + 4)) = true
          ∧ ∀ k, 1 ≤ k → M2TS_PACKET_SIZE * k < o →
              check_pcr (buf.drop (M2TS_PACKET_SIZE * k + 4)) = false) := by
  refine ⟨?_, ?_, ?_, ?_⟩
  · intro file input_size s r s2 hskip hfull hb0 hb188 hopen
    unfold open_file at hopen
    rw [hskip] at hopen
    simp only [skip_check, ne_eq, not_true_eq_false, if_false, ite_self] at hopen
    rw [if_neg (by rw [hfull]; exact fun hc => hc rfl)] at hopen
    rw [if_pos ⟨hb0, hb188⟩] at hopen
    exact open_file_finish_ptr _ r s2 hopen
  · intro file input_size s r s2 hskip hfull hts hm4 hm196 hopen
    unfold open_file at hopen
    rw [hskip] at hopen
    simp only [skip_check, ne_eq, not_true_eq_false, if_false, ite_self] at hopen
    rw [if_neg (by rw [hfull]; exact fun hc => hc rfl)] at hopen
    rw [if_neg hts, if_pos ⟨hm4, hm196⟩] at hopen
    cases hseek : seek_pcr_192 (preadBytes file input_size 0) input_size with
    | none =>
      rw [hseek] at hopen
      simp at hopen
    | some p =>
      rw [hseek] at hopen
      have hptr := open_file_finish_ptr _ r s2 hopen
      rw [hptr]
      by_cases ht : byte (preadBytes file M2TS_PACKET_SIZE
          (file.length - M2TS_PACKET_SIZE)) 4 ≠ 0x47 <;>
        simp [ht]
  · intro buf endOff o h
    obtain ⟨h1, _, _, h4, h5⟩ := seek_pcr_188_first buf endOff o h
    exact ⟨h1, h4, h5⟩
  · intro buf endOff o h
    obtain ⟨h1, _, _, h4, h5⟩ := seek_pcr_192_first buf endOff o h
    exact ⟨h1, h4, h5⟩

set_option maxRecDepth 100000 in
theorem C6_probe_cursor_amended_witness :
    c6result.ptr = seek_pcr_188 (preadBytes c6file 376 0) 376
  ∧ c6m2result.ptr = seek_pcr_192 (preadBytes c6m2file 384 0) 384
  ∧ (TS_PACKET_SIZE ≤ 188 ∧ check_pcr (c6file.drop 188) = true
      ∧ ∀ k, 1 ≤ k → TS_PACKET_SIZE * k < 188 →
          check_pcr (c6file.drop (TS_PACKET_SIZE * k)) = false)
  ∧ (M2TS_PACKET_SIZE ≤ 192 ∧ check_pcr (c6m2file.drop (192 + 4)) = true
      ∧ ∀ k, 1 ≤ k → M2TS_PACKET_SIZE * k < 192 →
          check_pcr (c6m2file.drop (M2TS_PACKET_SIZE * k + 4)) = false) :=
  ⟨C6_probe_cursor_amended.1 c6file 376 initFI true c6result rfl (by decide)
      (by decide) (by decide) (by decide),
   C6_probe_cursor_amended.2.1 c6m2file 384 initFI true c6m2result rfl (by decide)
      (by decide) (by decide) (by decide) (by decide),
   C6_probe_cursor_amended.2.2.1 c6file 376 188 (by decide),
   C6_probe_cursor_amended.2.2.2 c6m2file 384 192 (by decide)⟩

set_option maxRecDepth 100000 in
/-- Claim C6 counterexample: in a window whose very first packet already
satisfies `check_pcr`, the probe still sets the cursor to the second
packet (offset 188), not to the first packet the claim would require. -/
theorem C6_counterexample :
    check_pcr (c6file.drop 0) = true
  ∧ (open_file c6file 376 initFI).map (fun r => r.2.ptr) = some (some TS_PACKET_SIZE)
  ∧ ((open_file c6file 376 initFI).map (fun r => r.2.ptr) = some (some 0) → False) := by
  refine ⟨by decide, by decide, by decide⟩

/-- Claim C4 counterexample: `pos * ts_count` is a `uint32_t` product.
With 2^31 cells and ms = 8 < length = 16 the product wraps to 0, so the
code stores `file_skip = 0` where the claim's plain-integer formula gives
a nonzero offset. -/
theorem C4_counterexample :
    (method_position (some 8) c4state).map (fun r => (r.1, r.2.skip, r.2.reposition))
      = some (0, 0, true)
  ∧ ((8 * (c4state.file_size / M2TS_PACKET_SIZE) / c4state.length)
        * M2TS_PACKET_SIZE = 0 → False) := by
  refine ⟨by decide, by decide⟩

/-- Claim C4 amended: `position(ms)` with a non-nil argument returns 0
and changes nothing when `ms ≥ length` or the file is not M2TS;
otherwise it raises `reposition`, stores the spec formula evaluated in
32-bit unsigned arithmetic, and returns
`(m2ts_time(cursor)/1000 - start_time) mod 2^32`. -/
theorem C4_position_amended (s : FI) (ms p : Nat) (h32 : ms < 2 ^ 32) :
    (s.length ≤ ms ∨ s.ts_size ≠ M2TS_PACKET_SIZE →
        method_position (some ms) s = some (0, s))
  ∧ (ms < s.length → s.ts_size = M2TS_PACKET_SIZE → s.ptr = some p →
        method_position (some ms) s =
          some ((m2ts_time (s.buffer.drop p) / 1000 + 2 ^ 32 - s.start_time % 2 ^ 32)
                  % 2 ^ 32,
            { s with
                reposition := true
                skip := (ms * (s.file_size / M2TS_PACKET_SIZE % 2 ^ 32)) % 2 ^ 32
                          / s.length * M2TS_PACKET_SIZE % 2 ^ 32 })) := by
  have hpos : ms % 2 ^ 32 = ms := Nat.mod_eq_of_lt h32
  constructor
  · intro h
    simp only [method_position, hpos]
    rw [if_pos h]
  · intro h1 h2 hptr
    simp only [method_position, hpos]
    rw [if_neg (by push_neg; exact ⟨h1, h2⟩), hptr]

theorem C4_position_amended_witness :
    method_position (some 20) c4stateW = some (0, c4stateW)
  ∧ method_position (some 5) c4stateW =
      some ((m2ts_time (c4stateW.buffer.drop 0) / 1000 + 2 ^ 32
              - c4stateW.start_time % 2 ^ 32) % 2 ^ 32,
        { c4stateW with
            reposition := true
            skip := (5 * (c4stateW.file_size / M2TS_PACKET_SIZE % 2 ^ 32)) % 2 ^ 32
                      / c4stateW.length * M2TS_PACKET_SIZE % 2 ^ 32 }) :=
  ⟨(C4_position_amended c4stateW 20 0 (by decide)).1 (Or.inl (by decide)),
   (C4_position_amended c4stateW 5 0 (by decide)).2 (by decide) (by decide) rfl⟩
